import Mathlib

/-!
Verification of the chunked push-stream state machine of `web-adb`
(`src/native-host/web-adb.go`), as a shallow embedding in Lean.

The embedding models:
  * Go's `base64.StdEncoding` decoder (used by `PushStream.WriteChunk`) and
    the corresponding standard encoder, over byte lists (`Nat` values < 256);
  * the `PushStream` structure, the process-wide registry `pushStreams`
    (a Go `map[string]*PushStream`, modelled as a function
    `String → Option PushStream`), and the methods `newPushStream`,
    `AddDevice`, `WriteChunk`, `Close`;
  * the `push-file` and `push-chunk` cases of `handleRequest`, together with
    `doWithDevice`.

Effects on the outside world are made explicit:
  * a device write handle is a `DeviceHandle` recording the serial, the list
    of byte payloads written to it so far, and whether it has been closed;
  * whether `client.OpenWrite` succeeds for a serial is an oracle
    `openErr : String → Option String` (`some msg` = the open fails with
    message `msg`);
  * whether a device write fails during one `WriteChunk` call is an oracle
    `failWrite : String → Bool`;
  * `ListDeviceSerials` is an oracle `Except String (List String)`;
  * the random uuid produced by `newPushStream` is a parameter.

Handlers additionally return the list of handles closed during the request,
so that resource-cleanup claims can be stated.
-/

namespace WebAdb

/-! ## Base64 (Go `encoding/base64`, `StdEncoding`)

`PushStream.WriteChunk` begins with `base64.StdEncoding.DecodeString`.
Go's standard decoder assembles quartets of characters while skipping
`\r` and `\n`, maps characters through the standard alphabet, accepts
`=` padding only at the end of the input, and (in the default non-strict
mode) ignores the unused trailing bits of the final sextet.
-/

/-- The standard base64 alphabet, as in Go's `StdEncoding`. -/
def base64Alphabet : List Char :=
  "ABCDEFGHIJKLMNOPQRSTUVWXYZabcdefghijklmnopqrstuvwxyz0123456789+/".data

/-- Character of a sextet value (Go encode table lookup). -/
def alphaChar (n : Nat) : Char := base64Alphabet.getD n 'A'

/-- Sextet value of a character, `none` when the character is not in the
alphabet (Go decode table entry `0xFF`). -/
def sextetOf (c : Char) : Option Nat :=
  List.indexOf? c base64Alphabet

/-- Decode a base64 input, already stripped of `\r`/`\n`, quartet by
quartet. Mirrors Go's `decodeQuantum` loop: full quartets yield 3 bytes,
a final quartet ending in `==` yields 1 byte, ending in a single `=`
yields 2 bytes, and padding followed by further input is corrupt. -/
def decodeQuads : List Char → Option (List Nat)
  | [] => some []
  | c0 :: c1 :: c2 :: c3 :: rest =>
    match sextetOf c0, sextetOf c1 with
    | some s0, some s1 =>
      if c3 = '=' then
        if c2 = '=' then
          match rest with
          | [] => some [s0 * 4 + s1 / 16]
          | _ => none
        else
          match sextetOf c2 with
          | some s2 =>
            match rest with
            | [] => some [s0 * 4 + s1 / 16, s1 % 16 * 16 + s2 / 4]
            | _ => none
          | none => none
      else
        match sextetOf c2, sextetOf c3 with
        | some s2, some s3 =>
          (decodeQuads rest).map
            (fun tail =>
              (s0 * 4 + s1 / 16) :: (s1 % 16 * 16 + s2 / 4) :: (s2 % 4 * 64 + s3) :: tail)
        | _, _ => none
    | _, _ => none
  | _ => none

/-- Go `base64.StdEncoding.DecodeString`: skip newline characters, then
decode quartets. `none` models a `CorruptInputError`. -/
def base64Decode (s : String) : Option (List Nat) :=
  decodeQuads (s.data.filter (fun c => !(c = '\r' || c = '\n')))

/-- Go `base64.StdEncoding.EncodeToString` over a byte list: groups of
three bytes become four alphabet characters; a final group of one or two
bytes is padded with `=`. -/
def base64EncodeList : List Nat → List Char
  | [] => []
  | [b0] => [alphaChar (b0 / 4), alphaChar (b0 % 4 * 16), '=', '=']
  | [b0, b1] =>
    [alphaChar (b0 / 4), alphaChar (b0 % 4 * 16 + b1 / 16), alphaChar (b1 % 16 * 4), '=']
  | b0 :: b1 :: b2 :: rest =>
    alphaChar (b0 / 4) :: alphaChar (b0 % 4 * 16 + b1 / 16) ::
      alphaChar (b1 % 16 * 4 + b2 / 64) :: alphaChar (b2 % 64) ::
      base64EncodeList rest

/-- Go `base64.StdEncoding.EncodeToString`, producing a `String`. -/
def base64Encode (bytes : List Nat) : String :=
  String.mk (base64EncodeList bytes)

/-! ## Data model -/

/-- One `io.WriteCloser` returned by `client.OpenWrite`, with its observable
history: the serial it belongs to, the byte payloads written to it so far,
and whether `Close` has been called on it. -/
structure DeviceHandle where
  serial : String
  written : List (List Nat)
  closed : Bool
deriving Repr, DecidableEq

/-- The Go `PushStream` struct. `DeviceStreams` is a `map[string]io.WriteCloser`;
it is embedded as the list of live handles (iteration order is irrelevant to
every effect of the code). -/
structure PushStream where
  streamID : String
  devicePath : String
  lastChunkIndex : Int
  deviceStreams : List DeviceHandle
deriving Repr, DecidableEq

/-- Serials currently present in the stream's device map. -/
def PushStream.serials (s : PushStream) : List String :=
  s.deviceStreams.map DeviceHandle.serial

/-- The process-wide `pushStreams` registry, `map[string]*PushStream`. -/
def Registry : Type := String → Option PushStream

/-- Go map assignment `pushStreams[id] = s`. -/
def Registry.insert (reg : Registry) (id : String) (s : PushStream) : Registry :=
  fun k => if k = id then some s else reg k

/-- Go `delete(pushStreams, id)`. -/
def Registry.delete (reg : Registry) (id : String) : Registry :=
  fun k => if k = id then none else reg k

/-- The empty registry (initial `make(map[string]*PushStream)`). -/
def Registry.empty : Registry := fun _ => none

/-! ## Request and response shapes (`push-chunk`) -/

/-- Go `ChunkHeader`. -/
structure ChunkHeader where
  streamID : String
  chunkIndex : Int
  endOfStream : Bool
deriving Repr, DecidableEq

/-- Go `PushChunkRequest`. -/
structure PushChunkRequest where
  header : ChunkHeader
  data : String
deriving Repr, DecidableEq

/-- The errors a `push-chunk` response can carry, each with the values Go
formats into the message. -/
inductive ChunkError where
  /-- `"expected chunk %d, got chunk %d"` -/
  | outOfOrder (expected got : Int)
  /-- `"error decoding data: %v"` from `WriteChunk` -/
  | decodeError
  /-- `"all device streams closed"` from `WriteChunk` -/
  | allDeviceStreamsClosed
deriving Repr, DecidableEq

/-- Go `PushChunkResponse`. -/
structure PushChunkResponse where
  header : ChunkHeader
  success : Bool
  error : Option ChunkError
deriving Repr, DecidableEq

/-- Outcome of the `push-chunk` case of `handleRequest`: either the Go error
`"invalid stream ID: %s"` (carrying the id) returned to `doMain`, or a
`PushChunkResponse` payload. -/
inductive ChunkOutcome where
  | unknownStream (id : String)
  | response (resp : PushChunkResponse)
deriving Repr, DecidableEq

/-! ## Stream operations -/

/-- `newPushStream(devicePath)`: builds the stream with `LastChunkIndex: -1`
and an empty device map, and registers it at once under the freshly
generated uuid (`newID` stands for `uuid.NewRandom().String()`). -/
def newPushStream (reg : Registry) (newID : String) (devicePath : String) :
    Registry × PushStream :=
  let s : PushStream :=
    { streamID := newID, devicePath := devicePath
      lastChunkIndex := -1, deviceStreams := [] }
  (reg.insert newID s, s)

/-- `(*PushStream).AddDevice(serial, client)`: rejects a serial already in
the map, otherwise consults the `OpenWrite` oracle; on success a fresh
handle is added. Returns the updated stream and the Go error, if any. -/
def PushStream.AddDevice (s : PushStream) (openErr : String → Option String)
    (serial : String) : PushStream × Option String :=
  if serial ∈ s.serials then
    (s, some "device stream already opened")
  else
    match openErr serial with
    | some e => (s, some e)
    | none =>
      ({ s with deviceStreams :=
          s.deviceStreams ++ [{ serial := serial, written := [], closed := false }] },
        none)

/-- The two error returns of `(*PushStream).WriteChunk`. -/
inductive WriteChunkError where
  /-- `fmt.Errorf("error decoding data: %v", err)` -/
  | decodeError
  /-- `errors.New("all device streams closed")` -/
  | allDeviceStreamsClosed
deriving Repr, DecidableEq

/-- `(*PushStream).WriteChunk(base64Data)`: decode the payload (an invalid
payload is an error before anything is touched); write the bytes to every
handle in the map, closing and deleting each handle whose write fails
(`failWrite` is the per-device failure oracle for this call); error if the
map is then empty, else advance `LastChunkIndex`.

Returns the stream after the call, the handles closed during the call, and
the error, if any. -/
def PushStream.WriteChunk (s : PushStream) (failWrite : String → Bool)
    (base64Data : String) : PushStream × List DeviceHandle × Option WriteChunkError :=
  match base64Decode base64Data with
  | none => (s, [], some WriteChunkError.decodeError)
  | some data =>
    let surviving :=
      (s.deviceStreams.filter (fun h => !failWrite h.serial)).map
        (fun h => { h with written := h.written ++ [data] })
    let failed :=
      (s.deviceStreams.filter (fun h => failWrite h.serial)).map
        (fun h => { h with closed := true })
    if surviving.isEmpty then
      ({ s with deviceStreams := [] }, failed, some WriteChunkError.allDeviceStreamsClosed)
    else
      ({ s with deviceStreams := surviving, lastChunkIndex := s.lastChunkIndex + 1 },
        failed, none)

/-- `(*PushStream).Close()`: closes every handle still in the map and
deletes the stream from the registry. Returns the closed handles and the
updated registry. -/
def PushStream.Close (s : PushStream) (reg : Registry) :
    List DeviceHandle × Registry :=
  (s.deviceStreams.map (fun h => { h with closed := true }), reg.delete s.streamID)

/-! ## `handleRequest`, `push-chunk` case -/

/-- The `push-chunk` case of `handleRequest` (web-adb.go lines 261-310),
starting after the params have been unmarshalled. In Go the stream is
mutated through the registry's pointer; here every mutation of the stream
is written back to the registry explicitly. Returns the registry after the
request, the handles closed during the request, and the outcome. -/
def handlePushChunk (reg : Registry) (failWrite : String → Bool)
    (req : PushChunkRequest) : Registry × List DeviceHandle × ChunkOutcome :=
  match reg req.header.streamID with
  | none => (reg, [], ChunkOutcome.unknownStream req.header.streamID)
  | some stream =>
    if req.header.endOfStream then
      let (closed, reg2) := stream.Close reg
      (reg2, closed,
        ChunkOutcome.response { header := req.header, success := true, error := none })
    else if stream.lastChunkIndex ≠ req.header.chunkIndex - 1 then
      (reg, [],
        ChunkOutcome.response
          { header := req.header, success := false
            error := some (ChunkError.outOfOrder (stream.lastChunkIndex + 1)
              req.header.chunkIndex) })
    else
      match stream.WriteChunk failWrite req.data with
      | (s2, closedNow, some werr) =>
        let (closedByClose, reg2) := s2.Close (reg.insert req.header.streamID s2)
        (reg2, closedNow ++ closedByClose,
          ChunkOutcome.response
            { header := { req.header with endOfStream := true }, success := false
              error := some (match werr with
                | WriteChunkError.decodeError => ChunkError.decodeError
                | WriteChunkError.allDeviceStreamsClosed =>
                    ChunkError.allDeviceStreamsClosed) })
      | (s2, closedNow, none) =>
        (reg.insert req.header.streamID s2, closedNow,
          ChunkOutcome.response { header := req.header, success := true, error := none })

/-! ## `handleRequest`, `push-file` case -/

/-- Go `PushFileResponse`; `DeviceErrors` is `map[string]string`, embedded
as an association list written by map-overwrite semantics. -/
structure PushFileResponse where
  streamID : String
  deviceErrors : List (String × String)
deriving Repr, DecidableEq

/-- Go map assignment `m[k] = v` on an association list: any previous
binding of `k` is replaced. -/
def mapAssign (m : List (String × String)) (k v : String) : List (String × String) :=
  m.filter (fun p => p.1 ≠ k) ++ [(k, v)]

/-- `doWithDevice(server, deviceSerial, action)`: with an explicit serial
the action runs on it directly and the result is `nil`; with the empty
serial the device list is enumerated (oracle `listResult`, `.error e` when
`ListDeviceSerials` fails) and the action runs on each listed serial in
order. The model assumes the enumerated serials are themselves non-empty
strings (on an empty listed serial Go would re-enumerate). The action
threads explicit state `σ` in place of Go's closure captures. -/
def doWithDevice {σ : Type} (listResult : Except String (List String))
    (deviceSerial : String) (action : String → σ → σ) (st : σ) :
    σ × Option String :=
  if deviceSerial = "" then
    match listResult with
    | Except.error e => (st, some e)
    | Except.ok serials => (serials.foldl (fun acc sr => action sr acc) st, none)
  else
    (action deviceSerial st, none)

/-- The body of the `doWithDevice` callback in the `push-file` case:
`stream.AddDevice(serial, client)`, recording a failure in
`resp.DeviceErrors[serial]`. -/
def pushFileAction (openErr : String → Option String) (serial : String)
    (st : PushStream × List (String × String)) :
    PushStream × List (String × String) :=
  let (s, errs) := st
  match s.AddDevice openErr serial with
  | (s2, some e) => (s2, mapAssign errs serial e)
  | (s2, none) => (s2, errs)

/-- The `push-file` case of `handleRequest` (web-adb.go lines 229-259),
starting after the params have been unmarshalled: create and register the
stream, try to open a handle per target device, and only if `doWithDevice`
itself errors close the stream and fail the request. Returns the registry
after the request and either the Go error or the response. -/
def handlePushFile (reg : Registry) (newID : String) (devicePath : String)
    (openErr : String → Option String) (listResult : Except String (List String))
    (deviceSerial : String) :
    Registry × Except String PushFileResponse :=
  let (reg1, stream0) := newPushStream reg newID devicePath
  match doWithDevice listResult deviceSerial (pushFileAction openErr) (stream0, []) with
  | ((s, _), some e) =>
    let (_, reg2) := s.Close (reg1.insert newID s)
    (reg2, Except.error e)
  | ((s, errs), none) =>
    (reg1.insert newID s,
      Except.ok { streamID := newID, deviceErrors := errs })

/-! ## Iterated `WriteChunk` calls

Each step carries the per-device write-failure oracle for that call and the
base64 payload. -/

/-- Run a sequence of `WriteChunk` calls, requiring every call to be
accepted; `none` as soon as one call errors. -/
def acceptChunks (s : PushStream) : List ((String → Bool) × String) → Option PushStream
  | [] => some s
  | (f, d) :: rest =>
    match s.WriteChunk f d with
    | (s2, _, none) => acceptChunks s2 rest
    | (_, _, some _) => none

/-- Run a sequence of `WriteChunk` calls unconditionally, keeping the
resulting stream state. -/
def writeChunkSeq (s : PushStream) : List ((String → Bool) × String) → PushStream
  | [] => s
  | (f, d) :: rest => writeChunkSeq (s.WriteChunk f d).1 rest

/-! ## Concrete fixtures used by witnesses -/

/-- A freshly opened handle for serial `"A"`. -/
def handleA : DeviceHandle := { serial := "A", written := [], closed := false }

/-- A freshly opened handle for serial `"B"`. -/
def handleB : DeviceHandle := { serial := "B", written := [], closed := false }

/-- A registered stream with two live handles and no chunk accepted yet. -/
def streamAB : PushStream :=
  { streamID := "sid", devicePath := "/p", lastChunkIndex := -1
    deviceStreams := [handleA, handleB] }

/-- A registry holding exactly `streamAB`. -/
def regAB : Registry := Registry.empty.insert "sid" streamAB

/-- A write oracle under which no device write fails. -/
def noFail : String → Bool := fun _ => false

/-- A write oracle under which every device write fails. -/
def allFail : String → Bool := fun _ => true

/-! ## Helper lemmas about `WriteChunk` -/

/-- An accepted `WriteChunk` advances `LastChunkIndex` by exactly 1. -/
theorem writeChunk_ok_lastChunkIndex (s : PushStream) (f : String → Bool)
    (d : String) (s2 : PushStream) (cl : List DeviceHandle)
    (h : s.WriteChunk f d = (s2, cl, none)) :
    s2.lastChunkIndex = s.lastChunkIndex + 1 := by
  unfold PushStream.WriteChunk at h
  cases hd : base64Decode d with
  | none => rw [hd] at h; simp at h
  | some data =>
    rw [hd] at h
    simp only at h
    split at h
    · simp at h
    · obtain ⟨h1, -, -⟩ := Prod.mk.injEq .. ▸ h
      exact h1 ▸ rfl

/-- An erroring `WriteChunk` leaves `LastChunkIndex` unchanged. -/
theorem writeChunk_err_lastChunkIndex (s : PushStream) (f : String → Bool)
    (d : String) (s2 : PushStream) (cl : List DeviceHandle) (e : WriteChunkError)
    (h : s.WriteChunk f d = (s2, cl, some e)) :
    s2.lastChunkIndex = s.lastChunkIndex := by
  unfold PushStream.WriteChunk at h
  cases hd : base64Decode d with
  | none =>
    rw [hd] at h
    obtain ⟨h1, -⟩ := Prod.mk.injEq .. ▸ h
    exact h1 ▸ rfl
  | some data =>
    rw [hd] at h
    simp only at h
    split at h
    · obtain ⟨h1, -⟩ := Prod.mk.injEq .. ▸ h
      exact h1 ▸ rfl
    · simp at h

/-- A run of accepted chunks advances `LastChunkIndex` by its length. -/
theorem acceptChunks_lastChunkIndex (chunks : List ((String → Bool) × String)) :
    ∀ (s s' : PushStream), acceptChunks s chunks = some s' →
      s'.lastChunkIndex = s.lastChunkIndex + chunks.length := by
  induction chunks with
  | nil =>
    intro s s' h
    simp [acceptChunks] at h
    simp [← h]
  | cons fd rest ih =>
    intro s s' h
    obtain ⟨f, d⟩ := fd
    unfold acceptChunks at h
    cases hw : s.WriteChunk f d with
    | mk s2 rest2 =>
      obtain ⟨cl, err⟩ := rest2
      rw [hw] at h
      cases err with
      | none =>
        simp only at h
        have := ih s2 s' h
        have h1 := writeChunk_ok_lastChunkIndex s f d s2 cl hw
        simp only [this, h1, List.length_cons]
        push_cast
        ring
      | some e => simp at h

/-- The stream state reached from `streamAB` after the two accepted chunks
of `demoChunks`. -/
def demoStream2 : PushStream :=
  { streamID := "sid", devicePath := "/p", lastChunkIndex := 1
    deviceStreams :=
      [{ serial := "A", written := [[77], [0]], closed := false },
       { serial := "B", written := [[77], [0]], closed := false }] }

/-- Two well-formed chunks (`"TQ=="` decodes to `[77]`, `"AA=="` to `[0]`)
with no device failures. -/
def demoChunks : List ((String → Bool) × String) :=
  [(noFail, "TQ=="), (noFail, "AA==")]

/-- C1: a stream's last-chunk index starts at `-1` at stream creation,
advances by exactly 1 on each accepted chunk and not at all on a rejected
one, so after `N` consecutively-accepted chunks it equals `N - 1`. -/
theorem C1_lastChunkIndex_advances_by_one :
    (∀ (reg : Registry) (id p : String),
      ((newPushStream reg id p).2).lastChunkIndex = -1) ∧
    (∀ (s : PushStream) (f : String → Bool) (d : String) (s2 : PushStream)
        (cl : List DeviceHandle),
      s.WriteChunk f d = (s2, cl, none) → s2.lastChunkIndex = s.lastChunkIndex + 1) ∧
    (∀ (s : PushStream) (f : String → Bool) (d : String) (s2 : PushStream)
        (cl : List DeviceHandle) (e : WriteChunkError),
      s.WriteChunk f d = (s2, cl, some e) → s2.lastChunkIndex = s.lastChunkIndex) ∧
    (∀ (s : PushStream) (chunks : List ((String → Bool) × String)) (s' : PushStream),
      s.lastChunkIndex = -1 → acceptChunks s chunks = some s' →
      s'.lastChunkIndex = (chunks.length : Int) - 1) := by
  refine ⟨fun _ _ _ => rfl, writeChunk_ok_lastChunkIndex, writeChunk_err_lastChunkIndex, ?_⟩
  intro s chunks s' h0 hacc
  have := acceptChunks_lastChunkIndex chunks s s' hacc
  omega

/-- Witness for C1: from a fresh stream, two accepted chunks leave the
last-chunk index at `2 - 1 = 1`. -/
theorem C1_witness :
    streamAB.lastChunkIndex = -1 ∧
    acceptChunks streamAB demoChunks = some demoStream2 ∧
    demoStream2.lastChunkIndex = (demoChunks.length : Int) - 1 :=
  ⟨by decide, by decide,
    C1_lastChunkIndex_advances_by_one.2.2.2 streamAB demoChunks demoStream2
      (by decide) (by decide)⟩

/-- C4: a non-EOF chunk whose index differs from `lastChunkIndex + 1` is
rejected with no side effects: the registry (hence the stream's index,
handle set and written data) is untouched, no handle is closed, the
response is the out-of-order error, and the stream stays registered. -/
theorem C4_outOfOrder_chunk_rejected_without_side_effects
    (reg : Registry) (f : String → Bool) (req : PushChunkRequest) (s : PushStream)
    (hlook : reg req.header.streamID = some s)
    (hnoeof : req.header.endOfStream = false)
    (hidx : req.header.chunkIndex ≠ s.lastChunkIndex + 1) :
    handlePushChunk reg f req =
      (reg, [],
        ChunkOutcome.response
          { header := req.header, success := false
            error := some (ChunkError.outOfOrder (s.lastChunkIndex + 1)
              req.header.chunkIndex) }) ∧
    (handlePushChunk reg f req).1 req.header.streamID = some s := by
  have hidx' : s.lastChunkIndex ≠ req.header.chunkIndex - 1 := by omega
  have key : handlePushChunk reg f req =
      (reg, [],
        ChunkOutcome.response
          { header := req.header, success := false
            error := some (ChunkError.outOfOrder (s.lastChunkIndex + 1)
              req.header.chunkIndex) }) := by
    simp only [handlePushChunk, hlook, hnoeof]
    simp [hidx']
  exact ⟨key, by rw [key]; exact hlook⟩

/-- Witness for C4: submitting chunk index 5 to a fresh stream (expected
index 0) is rejected, closes nothing, and leaves the stream registered. -/
theorem C4_witness :
    regAB "sid" = some streamAB ∧
    (⟨⟨"sid", 5, false⟩, "TQ=="⟩ : PushChunkRequest).header.endOfStream = false ∧
    ((⟨⟨"sid", 5, false⟩, "TQ=="⟩ : PushChunkRequest).header.chunkIndex ≠
      streamAB.lastChunkIndex + 1) ∧
    (handlePushChunk regAB noFail ⟨⟨"sid", 5, false⟩, "TQ=="⟩ =
      (regAB, [],
        ChunkOutcome.response
          { header := ⟨"sid", 5, false⟩, success := false
            error := some (ChunkError.outOfOrder (streamAB.lastChunkIndex + 1) 5) }) ∧
    (handlePushChunk regAB noFail ⟨⟨"sid", 5, false⟩, "TQ=="⟩).1 "sid" = some streamAB) :=
  ⟨by decide, by decide, by decide,
    C4_outOfOrder_chunk_rejected_without_side_effects regAB noFail
      ⟨⟨"sid", 5, false⟩, "TQ=="⟩ streamAB (by decide) (by decide) (by decide)⟩

/-! ## Helper lemmas about `handlePushChunk` -/

/-- An unregistered stream id makes `push-chunk` fail with the
`invalid stream ID` error, touching nothing. -/
theorem handlePushChunk_unknown (reg : Registry) (f : String → Bool)
    (req : PushChunkRequest) (h : reg req.header.streamID = none) :
    handlePushChunk reg f req =
      (reg, [], ChunkOutcome.unknownStream req.header.streamID) := by
  simp [handlePushChunk, h]

/-- A `push-chunk` request with the EOF flag set closes every handle of the
registered stream, deletes it from the registry, and succeeds — before the
index check and before payload decoding. -/
theorem handlePushChunk_eof (reg : Registry) (f : String → Bool)
    (req : PushChunkRequest) (s : PushStream)
    (hlook : reg req.header.streamID = some s)
    (heof : req.header.endOfStream = true) :
    handlePushChunk reg f req =
      (reg.delete s.streamID,
       s.deviceStreams.map (fun h => { h with closed := true }),
       ChunkOutcome.response { header := req.header, success := true, error := none }) := by
  simp only [handlePushChunk, hlook, heof]
  simp [PushStream.Close]

/-- C6: EndOfStream on a registered stream closes all remaining handles,
removes the stream from the registry, and succeeds; a second EndOfStream on
the same id (indeed any further request on that id) fails with the
unknown-stream error. -/
theorem C6_endOfStream_closes_and_second_eof_fails
    (reg : Registry) (f : String → Bool) (req : PushChunkRequest) (s : PushStream)
    (hlook : reg req.header.streamID = some s)
    (hsid : s.streamID = req.header.streamID)
    (heof : req.header.endOfStream = true) :
    handlePushChunk reg f req =
      (reg.delete req.header.streamID,
       s.deviceStreams.map (fun h => { h with closed := true }),
       ChunkOutcome.response { header := req.header, success := true, error := none }) ∧
    (∀ h2 ∈ (handlePushChunk reg f req).2.1, h2.closed = true) ∧
    (handlePushChunk reg f req).1 req.header.streamID = none ∧
    (∀ (f2 : String → Bool) (req2 : PushChunkRequest),
      req2.header.streamID = req.header.streamID →
      handlePushChunk (handlePushChunk reg f req).1 f2 req2 =
        ((handlePushChunk reg f req).1, [],
          ChunkOutcome.unknownStream req2.header.streamID)) := by
  have key := handlePushChunk_eof reg f req s hlook heof
  rw [hsid] at key
  refine ⟨key, ?_, ?_, ?_⟩
  · intro h2 hm
    rw [key] at hm
    simp only [List.mem_map] at hm
    obtain ⟨h0, -, rfl⟩ := hm
    rfl
  · rw [key]
    simp [Registry.delete]
  · intro f2 req2 hid
    apply handlePushChunk_unknown
    rw [key, hid]
    simp [Registry.delete]

/-- Witness for C6: EOF on a registered two-device stream succeeds and
closes both handles; a repeated EOF on the same id fails as unknown. -/
theorem C6_witness :
    regAB "sid" = some streamAB ∧
    streamAB.streamID = "sid" ∧
    handlePushChunk regAB noFail ⟨⟨"sid", 0, true⟩, ""⟩ =
      (regAB.delete "sid",
       [{ serial := "A", written := [], closed := true },
        { serial := "B", written := [], closed := true }],
       ChunkOutcome.response { header := ⟨"sid", 0, true⟩, success := true, error := none }) ∧
    handlePushChunk (handlePushChunk regAB noFail ⟨⟨"sid", 0, true⟩, ""⟩).1 noFail
        ⟨⟨"sid", 1, true⟩, ""⟩ =
      ((handlePushChunk regAB noFail ⟨⟨"sid", 0, true⟩, ""⟩).1, [],
        ChunkOutcome.unknownStream "sid") :=
  ⟨by decide, by decide,
    (C6_endOfStream_closes_and_second_eof_fails regAB noFail ⟨⟨"sid", 0, true⟩, ""⟩
      streamAB (by decide) (by decide) (by decide)).1,
    (C6_endOfStream_closes_and_second_eof_fails regAB noFail ⟨⟨"sid", 0, true⟩, ""⟩
      streamAB (by decide) (by decide) (by decide)).2.2.2 noFail
      ⟨⟨"sid", 1, true⟩, ""⟩ (by decide)⟩

/-- C10: a `push-chunk` request with the EOF flag set is accepted and
closes the registered stream for every chunk index and for every data
field, including an out-of-order index and a payload that is not valid
base64: the EOF check precedes the index check and payload decoding. -/
theorem C10_eof_precedes_index_check_and_decoding
    (reg : Registry) (f : String → Bool) (id : String) (idx : Int) (dat : String)
    (s : PushStream) (hlook : reg id = some s) :
    handlePushChunk reg f ⟨⟨id, idx, true⟩, dat⟩ =
      (reg.delete s.streamID,
       s.deviceStreams.map (fun h => { h with closed := true }),
       ChunkOutcome.response
         { header := ⟨id, idx, true⟩, success := true, error := none }) :=
  handlePushChunk_eof reg f ⟨⟨id, idx, true⟩, dat⟩ s hlook rfl

/-- Witness for C10: an EOF request with out-of-order index 42 and invalid
base64 data `"!!!"` is still accepted and closes the stream. -/
theorem C10_witness :
    regAB "sid" = some streamAB ∧
    handlePushChunk regAB noFail ⟨⟨"sid", 42, true⟩, "!!!"⟩ =
      (regAB.delete "sid",
       [{ serial := "A", written := [], closed := true },
        { serial := "B", written := [], closed := true }],
       ChunkOutcome.response
         { header := ⟨"sid", 42, true⟩, success := true, error := none }) :=
  ⟨by decide,
    C10_eof_precedes_index_check_and_decoding regAB noFail "sid" 42 "!!!"
      streamAB (by decide)⟩

/-- Characterization of the total-failure return of `WriteChunk`: the
device map is emptied, every handle of the stream is closed, and every
handle's write did fail. -/
theorem writeChunk_allFailed (s : PushStream) (f : String → Bool) (d : String)
    (s2 : PushStream) (cl : List DeviceHandle)
    (h : s.WriteChunk f d = (s2, cl, some WriteChunkError.allDeviceStreamsClosed)) :
    s2 = { s with deviceStreams := [] } ∧
    cl = s.deviceStreams.map (fun hh => { hh with closed := true }) ∧
    ∀ hh ∈ s.deviceStreams, f hh.serial = true := by
  unfold PushStream.WriteChunk at h
  cases hd : base64Decode d with
  | none => rw [hd] at h; simp at h
  | some data =>
    rw [hd] at h
    simp only at h
    split at h
    case isTrue hempty =>
      rw [List.isEmpty_iff, List.map_eq_nil_iff, List.filter_eq_nil_iff] at hempty
      have hall : ∀ hh ∈ s.deviceStreams, f hh.serial = true := by
        intro hh hm
        have := hempty hh hm
        simpa using this
      have h1 := congrArg Prod.fst h
      have h2 := congrArg (fun p => p.2.1) h
      simp only at h1 h2
      refine ⟨h1.symm, ?_, hall⟩
      rw [← h2]
      congr 1
      rw [List.filter_eq_self]
      exact hall
    case isFalse => simp at h

/-- Characterization of an accepted `WriteChunk`: the payload decodes, the
surviving handles are exactly the non-failing ones with the decoded bytes
appended, the failing handles are closed, and the index advances. -/
theorem writeChunk_accepted (s : PushStream) (f : String → Bool) (d : String)
    (s2 : PushStream) (cl : List DeviceHandle)
    (h : s.WriteChunk f d = (s2, cl, none)) :
    ∃ data, base64Decode d = some data ∧
      s2.deviceStreams =
        (s.deviceStreams.filter (fun hh => !f hh.serial)).map
          (fun hh => { hh with written := hh.written ++ [data] }) ∧
      cl = (s.deviceStreams.filter (fun hh => f hh.serial)).map
          (fun hh => { hh with closed := true }) ∧
      s2.lastChunkIndex = s.lastChunkIndex + 1 ∧
      s2.streamID = s.streamID ∧ s2.devicePath = s.devicePath := by
  unfold PushStream.WriteChunk at h
  cases hd : base64Decode d with
  | none => rw [hd] at h; simp at h
  | some data =>
    rw [hd] at h
    simp only at h
    split at h
    case isTrue => simp at h
    case isFalse =>
      have h1 := congrArg Prod.fst h
      have h2 := congrArg (fun p => p.2.1) h
      simp only at h1 h2
      exact ⟨data, rfl, by rw [← h1], h2.symm, by rw [← h1], by rw [← h1], by rw [← h1]⟩

/-- `WriteChunk` never adds a serial to the device map. -/
theorem writeChunk_serials_subset (s : PushStream) (f : String → Bool) (d : String) :
    (s.WriteChunk f d).1.serials ⊆ s.serials := by
  unfold PushStream.WriteChunk
  cases hd : base64Decode d with
  | none => simp
  | some data =>
    simp only
    split
    · intro x hx
      simp [PushStream.serials] at hx
    · intro x hx
      simp only [PushStream.serials, List.map_map, List.mem_map] at hx
      obtain ⟨h0, hm0, hser⟩ := hx
      simp only [PushStream.serials, List.mem_map]
      exact ⟨h0, List.mem_of_mem_filter hm0, hser⟩

/-- A serial absent from the device map never reappears across any sequence
of later `WriteChunk` calls. -/
theorem writeChunkSeq_serial_absent (sr : String) :
    ∀ (steps : List ((String → Bool) × String)) (s : PushStream),
      sr ∉ s.serials → sr ∉ (writeChunkSeq s steps).serials := by
  intro steps
  induction steps with
  | nil => intro s hs; exact hs
  | cons fd rest ih =>
    intro s hs
    obtain ⟨f, d⟩ := fd
    exact ih (s.WriteChunk f d).1 (fun hmem => hs (writeChunk_serials_subset s f d hmem))

/-- C5: a correctly-ordered chunk whose writes fail on every device
terminates the stream: every handle is closed, the stream is deregistered,
the `all device streams closed` error is surfaced with the EOF flag set,
and every subsequent request on the same id fails as an unknown stream. -/
theorem C5_total_failure_terminates_stream
    (reg : Registry) (f : String → Bool) (req : PushChunkRequest) (s s2 : PushStream)
    (cl : List DeviceHandle)
    (hlook : reg req.header.streamID = some s)
    (hsid : s.streamID = req.header.streamID)
    (hnoeof : req.header.endOfStream = false)
    (hidx : s.lastChunkIndex = req.header.chunkIndex - 1)
    (hwc : s.WriteChunk f req.data = (s2, cl, some WriteChunkError.allDeviceStreamsClosed)) :
    (handlePushChunk reg f req).2.1 =
      s.deviceStreams.map (fun hh => { hh with closed := true }) ∧
    (handlePushChunk reg f req).1 req.header.streamID = none ∧
    (handlePushChunk reg f req).2.2 =
      ChunkOutcome.response
        { header := { req.header with endOfStream := true }, success := false
          error := some ChunkError.allDeviceStreamsClosed } ∧
    (∀ (f2 : String → Bool) (req2 : PushChunkRequest),
      req2.header.streamID = req.header.streamID →
      handlePushChunk (handlePushChunk reg f req).1 f2 req2 =
        ((handlePushChunk reg f req).1, [],
          ChunkOutcome.unknownStream req2.header.streamID)) := by
  obtain ⟨hs2, hcl, -⟩ := writeChunk_allFailed s f req.data s2 cl hwc
  have hs2id : s2.streamID = req.header.streamID := by rw [hs2]; exact hsid
  have hs2ds : s2.deviceStreams = [] := by rw [hs2]
  have key : handlePushChunk reg f req =
      (((reg.insert req.header.streamID s2).delete s2.streamID),
        cl ++ s2.deviceStreams.map (fun hh => { hh with closed := true }),
        ChunkOutcome.response
          { header := { req.header with endOfStream := true }, success := false
            error := some ChunkError.allDeviceStreamsClosed }) := by
    simp only [handlePushChunk, hlook, hnoeof, hidx, hwc]
    simp [PushStream.Close]
  refine ⟨?_, ?_, ?_, ?_⟩
  · rw [key]
    simp [hs2ds, hcl]
  · rw [key]
    simp [Registry.delete, hs2id]
  · rw [key]
  · intro f2 req2 hid
    apply handlePushChunk_unknown
    rw [key]
    simp [Registry.delete, hs2id, hid]

/-- Witness for C5: a chunk whose write fails on both devices closes both
handles, deregisters the stream, surfaces the total-failure error, and a
retry on the same id is an unknown stream. -/
theorem C5_witness :
    regAB "sid" = some streamAB ∧
    streamAB.WriteChunk allFail "TQ==" =
      ({ streamAB with deviceStreams := [] },
        [{ serial := "A", written := [], closed := true },
         { serial := "B", written := [], closed := true }],
        some WriteChunkError.allDeviceStreamsClosed) ∧
    (handlePushChunk regAB allFail ⟨⟨"sid", 0, false⟩, "TQ=="⟩).2.1 =
      [{ serial := "A", written := [], closed := true },
       { serial := "B", written := [], closed := true }] ∧
    (handlePushChunk regAB allFail ⟨⟨"sid", 0, false⟩, "TQ=="⟩).1 "sid" = none ∧
    (handlePushChunk regAB allFail ⟨⟨"sid", 0, false⟩, "TQ=="⟩).2.2 =
      ChunkOutcome.response
        { header := ⟨"sid", 0, true⟩, success := false
          error := some ChunkError.allDeviceStreamsClosed } ∧
    handlePushChunk (handlePushChunk regAB allFail ⟨⟨"sid", 0, false⟩, "TQ=="⟩).1 noFail
        ⟨⟨"sid", 1, false⟩, "AA=="⟩ =
      ((handlePushChunk regAB allFail ⟨⟨"sid", 0, false⟩, "TQ=="⟩).1, [],
        ChunkOutcome.unknownStream "sid") := by
  have h := C5_total_failure_terminates_stream regAB allFail ⟨⟨"sid", 0, false⟩, "TQ=="⟩
    streamAB { streamAB with deviceStreams := [] }
    [{ serial := "A", written := [], closed := true },
     { serial := "B", written := [], closed := true }]
    (by decide) (by decide) (by decide) (by decide) (by decide)
  exact ⟨by decide, by decide, h.1, h.2.1, h.2.2.1,
    h.2.2.2 noFail ⟨⟨"sid", 1, false⟩, "AA=="⟩ (by decide)⟩

/-- C7: on an accepted chunk the decoded payload is appended to every
non-failing handle; every failing handle is closed, leaves the device map,
and its serial never reappears in any later `WriteChunk`; the surviving map
holds nothing but the non-failing handles with the payload appended; and
the last-chunk index advances. -/
theorem C7_accepted_chunk_fans_out_and_prunes
    (s : PushStream) (f : String → Bool) (d : String) (s2 : PushStream)
    (cl : List DeviceHandle)
    (hwc : s.WriteChunk f d = (s2, cl, none)) :
    ∃ data, base64Decode d = some data ∧
      (∀ hh ∈ s.deviceStreams, f hh.serial = false →
        { hh with written := hh.written ++ [data] } ∈ s2.deviceStreams) ∧
      (∀ hh ∈ s.deviceStreams, f hh.serial = true →
        { hh with closed := true } ∈ cl ∧ hh.serial ∉ s2.serials ∧
        ∀ steps, hh.serial ∉ (writeChunkSeq s2 steps).serials) ∧
      (∀ h2 ∈ s2.deviceStreams, ∃ hh, hh ∈ s.deviceStreams ∧ f hh.serial = false ∧
        h2 = { hh with written := hh.written ++ [data] }) ∧
      s2.lastChunkIndex = s.lastChunkIndex + 1 := by
  obtain ⟨data, hd, hds, hcl, hlast, -, -⟩ := writeChunk_accepted s f d s2 cl hwc
  refine ⟨data, hd, ?_, ?_, ?_, hlast⟩
  · intro hh hm hf
    rw [hds]
    exact List.mem_map_of_mem _ (List.mem_filter.mpr ⟨hm, by simp [hf]⟩)
  · intro hh hm hf
    have habs : hh.serial ∉ s2.serials := by
      intro hser
      simp only [PushStream.serials, hds, List.map_map, List.mem_map] at hser
      obtain ⟨h0, hm0, hser0⟩ := hser
      have hf0 : (!f h0.serial) = true := (List.mem_filter.mp hm0).2
      have : h0.serial = hh.serial := hser0
      rw [this] at hf0
      simp [hf] at hf0
    refine ⟨?_, habs, fun steps => writeChunkSeq_serial_absent hh.serial steps s2 habs⟩
    rw [hcl]
    exact List.mem_map_of_mem _ (List.mem_filter.mpr ⟨hm, hf⟩)
  · intro h2 hm2
    rw [hds] at hm2
    obtain ⟨h0, hm0, rfl⟩ := List.mem_map.mp hm2
    have hf0 : (!f h0.serial) = true := (List.mem_filter.mp hm0).2
    exact ⟨h0, (List.mem_filter.mp hm0).1, by simpa using hf0, rfl⟩

/-- A write oracle under which exactly serial `"B"` fails. -/
def failB : String → Bool := fun sr => sr == "B"

/-- Witness for C7: writing `"TQ=="` (`[77]`) to `{A, B}` with B's write
failing appends `[77]` to A, closes and permanently removes B, and
advances the index. -/
theorem C7_witness :
    streamAB.WriteChunk failB "TQ==" =
      ({ streamID := "sid", devicePath := "/p", lastChunkIndex := 0
         deviceStreams := [{ serial := "A", written := [[77]], closed := false }] },
       [{ serial := "B", written := [], closed := true }], none) ∧
    { serial := "A", written := [[77]], closed := false } ∈
      (streamAB.WriteChunk failB "TQ==").1.deviceStreams ∧
    { serial := "B", written := [], closed := true } ∈
      (streamAB.WriteChunk failB "TQ==").2.1 ∧
    "B" ∉ (streamAB.WriteChunk failB "TQ==").1.serials ∧
    "B" ∉ (writeChunkSeq (streamAB.WriteChunk failB "TQ==").1 [(noFail, "AA==")]).serials ∧
    (streamAB.WriteChunk failB "TQ==").1.lastChunkIndex = streamAB.lastChunkIndex + 1 := by
  obtain ⟨data, hd, hsurv, hfail, -, hlast⟩ :=
    C7_accepted_chunk_fans_out_and_prunes streamAB failB "TQ=="
      { streamID := "sid", devicePath := "/p", lastChunkIndex := 0
        deviceStreams := [{ serial := "A", written := [[77]], closed := false }] }
      [{ serial := "B", written := [], closed := true }] (by decide)
  have h77 : base64Decode "TQ==" = some [77] := by decide
  rw [h77] at hd
  have hdata : data = [77] := (Option.some.inj hd).symm
  subst hdata
  have hB := hfail { serial := "B", written := [], closed := false } (by decide) (by decide)
  exact ⟨by decide,
    hsurv { serial := "A", written := [], closed := false } (by decide) (by decide),
    hB.1, hB.2.1, hB.2.2 [(noFail, "AA==")], hlast⟩

/-- A registered single-device stream used for the `push-chunk` decode-bug
evaluation. -/
def streamA1 : PushStream :=
  { streamID := "sidA", devicePath := "/p", lastChunkIndex := -1
    deviceStreams := [{ serial := "A", written := [], closed := false }] }

/-- A registry holding exactly `streamA1`. -/
def regA1 : Registry := Registry.empty.insert "sidA" streamA1

/-- C3, evaluated at the failing input: a chunk at the correct index whose
data is not valid base64, sent to a registered stream with one live handle
and no device write failure, closes the live handle, deregisters the
stream, and surfaces a terminal decode error — even though no device
failed, let alone all of them. -/
theorem C3_decode_error_terminates_live_stream :
    base64Decode "!!!" = none ∧
    (handlePushChunk regA1 noFail ⟨⟨"sidA", 0, false⟩, "!!!"⟩).1 "sidA" = none ∧
    (handlePushChunk regA1 noFail ⟨⟨"sidA", 0, false⟩, "!!!"⟩).2.1 =
      [{ serial := "A", written := [], closed := true }] ∧
    (handlePushChunk regA1 noFail ⟨⟨"sidA", 0, false⟩, "!!!"⟩).2.2 =
      ChunkOutcome.response
        { header := ⟨"sidA", 0, true⟩, success := false
          error := some ChunkError.decodeError } := by
  refine ⟨by decide, by decide, by decide, by decide⟩

/-- Counterexample to C2: with a single requested device whose open fails,
zero write handles are opened, yet the call succeeds and the stream is left
in the registry (with an empty handle map). -/
theorem C2_counterexample_zero_opens_still_registered :
    (handlePushFile Registry.empty "s" "/p" (fun _ => some "open failed")
        (Except.ok []) "d").2 =
      Except.ok { streamID := "s", deviceErrors := [("d", "open failed")] } ∧
    (handlePushFile Registry.empty "s" "/p" (fun _ => some "open failed")
        (Except.ok []) "d").1 "s" =
      some { streamID := "s", devicePath := "/p", lastChunkIndex := -1,
             deviceStreams := [] } :=
  ⟨rfl, rfl⟩

/-- C2 as amended: the stream is deregistered and the call fails exactly
when device enumeration itself fails (empty requested serial and a
`ListDeviceSerials` error); when a single requested device fails to open —
so zero write handles are opened — the call still succeeds and the stream
stays registered with an empty handle map, the failure reported only in
`device_errors`. -/
theorem C2_amended_failure_only_on_enumeration_error :
    (∀ (reg : Registry) (id p e : String) (oe : String → Option String),
      (handlePushFile reg id p oe (Except.error e) "").1 id = none ∧
      (handlePushFile reg id p oe (Except.error e) "").2 = Except.error e) ∧
    (∀ (reg : Registry) (id p ds msg : String) (oe : String → Option String)
        (lr : Except String (List String)),
      ds ≠ "" → oe ds = some msg →
      (handlePushFile reg id p oe lr ds).2 =
        Except.ok { streamID := id, deviceErrors := [(ds, msg)] } ∧
      (handlePushFile reg id p oe lr ds).1 id =
        some { streamID := id, devicePath := p, lastChunkIndex := -1,
               deviceStreams := [] }) := by
  constructor
  · intro reg id p e oe
    constructor
    · simp [handlePushFile, newPushStream, doWithDevice, PushStream.Close,
        Registry.delete, Registry.insert]
    · simp [handlePushFile, newPushStream, doWithDevice, PushStream.Close]
  · intro reg id p ds msg oe lr hds hoe
    constructor
    · simp [handlePushFile, newPushStream, doWithDevice, hds, pushFileAction,
        PushStream.AddDevice, PushStream.serials, hoe, mapAssign]
    · simp [handlePushFile, newPushStream, doWithDevice, hds, pushFileAction,
        PushStream.AddDevice, PushStream.serials, hoe, mapAssign, Registry.insert]

/-- Witness for the amended C2: device `"d"` fails to open, the call
returns success with the error recorded, and the empty stream is
registered. -/
theorem C2_witness :
    ("d" : String) ≠ "" ∧
    (fun _ : String => some "open failed") "d" = some "open failed" ∧
    (handlePushFile Registry.empty "s" "/p" (fun _ => some "open failed")
        (Except.ok []) "d").2 =
      Except.ok { streamID := "s", deviceErrors := [("d", "open failed")] } ∧
    (handlePushFile Registry.empty "s" "/p" (fun _ => some "open failed")
        (Except.ok []) "d").1 "s" =
      some { streamID := "s", devicePath := "/p", lastChunkIndex := -1,
             deviceStreams := [] } :=
  ⟨by decide, rfl,
    (C2_amended_failure_only_on_enumeration_error.2 Registry.empty "s" "/p" "d"
      "open failed" (fun _ => some "open failed") (Except.ok []) (by decide) rfl).1,
    (C2_amended_failure_only_on_enumeration_error.2 Registry.empty "s" "/p" "d"
      "open failed" (fun _ => some "open failed") (Except.ok []) (by decide) rfl).2⟩

/-! ## Helper lemmas about the `push-file` fold -/

/-- Map assignment on a key not yet bound is an append. -/
theorem mapAssign_fresh (m : List (String × String)) (k v : String)
    (h : k ∉ m.map Prod.fst) : mapAssign m k v = m ++ [(k, v)] := by
  unfold mapAssign
  congr 1
  rw [List.filter_eq_self]
  intro p hp
  simp only [decide_eq_true_eq]
  intro hk
  exact h (hk ▸ List.mem_map_of_mem Prod.fst hp)

/-- `pushFileAction` on a serial whose open fails records the error. -/
theorem pushFileAction_fail (oe : String → Option String) (sr : String)
    (s : PushStream) (errs : List (String × String)) (e : String)
    (hs : sr ∉ s.serials) (he : sr ∉ errs.map Prod.fst) (hoe : oe sr = some e) :
    pushFileAction oe sr (s, errs) = (s, errs ++ [(sr, e)]) := by
  simp [pushFileAction, PushStream.AddDevice, hs, hoe, mapAssign_fresh errs sr e he]

/-- `pushFileAction` on a serial whose open succeeds adds a fresh handle. -/
theorem pushFileAction_ok (oe : String → Option String) (sr : String)
    (s : PushStream) (errs : List (String × String))
    (hs : sr ∉ s.serials) (hoe : oe sr = none) :
    pushFileAction oe sr (s, errs) =
      ({ s with deviceStreams :=
          s.deviceStreams ++ [{ serial := sr, written := [], closed := false }] },
        errs) := by
  simp [pushFileAction, PushStream.AddDevice, hs, hoe]

/-- The fresh handles produced by a successful run of the `push-file`
callback: one per serial whose `OpenWrite` succeeds. -/
def openedHandles (oe : String → Option String) (serials : List String) :
    List DeviceHandle :=
  (serials.filter (fun sr => (oe sr).isNone)).map
    (fun sr => { serial := sr, written := [], closed := false })

/-- The per-device error map produced by the `push-file` callback: one
entry per serial whose `OpenWrite` fails, carrying its error message. -/
def openErrors (oe : String → Option String) (serials : List String) :
    List (String × String) :=
  serials.filterMap (fun sr => (oe sr).map (fun e => (sr, e)))

/-- Running the `push-file` callback over a duplicate-free list of serials
adds exactly the handles of the serials whose open succeeds and records
exactly the open errors of the serials whose open fails. -/
theorem pushFile_fold (oe : String → Option String) :
    ∀ (serials : List String) (s : PushStream) (errs : List (String × String)),
      serials.Nodup →
      (∀ sr ∈ serials, sr ∉ s.serials) →
      (∀ sr ∈ serials, sr ∉ errs.map Prod.fst) →
      serials.foldl (fun acc sr => pushFileAction oe sr acc) (s, errs) =
        ({ s with deviceStreams := s.deviceStreams ++ openedHandles oe serials },
         errs ++ openErrors oe serials) := by
  intro serials
  induction serials with
  | nil => intro s errs _ _ _; simp [openedHandles, openErrors]
  | cons sr rest ih =>
    intro s errs hnodup hfresh herrs
    have hsr_s : sr ∉ s.serials := hfresh sr (by simp)
    have hsr_e : sr ∉ errs.map Prod.fst := herrs sr (by simp)
    obtain ⟨hsr_rest, hnodup'⟩ := List.nodup_cons.mp hnodup
    simp only [List.foldl_cons]
    cases hoe : oe sr with
    | some e =>
      rw [pushFileAction_fail oe sr s errs e hsr_s hsr_e hoe]
      rw [ih s (errs ++ [(sr, e)]) hnodup'
        (fun x hx => hfresh x (by simp [hx]))
        (fun x hx => by
          simp only [List.map_append, List.mem_append]
          rintro (hmem | hmem)
          · exact herrs x (by simp [hx]) hmem
          · simp at hmem
            exact hsr_rest (hmem ▸ hx))]
      have hfilter : openedHandles oe (sr :: rest) = openedHandles oe rest := by
        unfold openedHandles
        rw [List.filter_cons_of_neg (by simp [hoe])]
      have hfm : openErrors oe (sr :: rest) =
          (sr, e) :: openErrors oe rest := by
        unfold openErrors
        simp [List.filterMap_cons, hoe]
      rw [hfilter, hfm]
      simp
    | none =>
      rw [pushFileAction_ok oe sr s errs hsr_s hoe]
      rw [ih { s with deviceStreams :=
            s.deviceStreams ++ [{ serial := sr, written := [], closed := false }] }
          errs hnodup'
        (fun x hx => by
          simp only [PushStream.serials, List.map_append, List.mem_append]
          rintro (hmem | hmem)
          · exact hfresh x (by simp [hx]) hmem
          · simp at hmem
            exact hsr_rest (hmem ▸ hx))
        (fun x hx => herrs x (by simp [hx]))]
      have hfilter : openedHandles oe (sr :: rest) =
          { serial := sr, written := [], closed := false } :: openedHandles oe rest := by
        unfold openedHandles
        rw [List.filter_cons_of_pos (by simp [hoe])]
        rfl
      have hfm : openErrors oe (sr :: rest) = openErrors oe rest := by
        unfold openErrors
        simp [List.filterMap_cons, hoe]
      rw [hfilter, hfm]
      simp

/-- Re-registering a stream id overwrites the earlier registration. -/
theorem Registry.insert_insert (reg : Registry) (id : String) (a b : PushStream) :
    (reg.insert id a).insert id b = reg.insert id b := by
  funext k
  by_cases hk : k = id <;> simp [Registry.insert, hk]

/-- C8: a `push-file` request over a duplicate-free device set with mixed
open results reports exactly the failing devices (keyed by serial, with
their error messages) in `device_errors`, and registers a stream whose
device map holds exactly the succeeding devices. -/
theorem C8_mixed_open_results_partition_devices
    (reg : Registry) (id p : String) (oe : String → Option String)
    (serials : List String)
    (hnodup : serials.Nodup) (_hne : "" ∉ serials)
    (_hsucc : ∃ sr ∈ serials, oe sr = none)
    (_hfail : ∃ sr ∈ serials, (oe sr).isSome) :
    (handlePushFile reg id p oe (Except.ok serials) "").2 =
      Except.ok { streamID := id, deviceErrors := openErrors oe serials } ∧
    (handlePushFile reg id p oe (Except.ok serials) "").1 id =
      some { streamID := id, devicePath := p, lastChunkIndex := -1,
             deviceStreams := openedHandles oe serials } ∧
    (∀ sr msg, (sr, msg) ∈ openErrors oe serials ↔ sr ∈ serials ∧ oe sr = some msg) ∧
    (∀ sr, sr ∈ (openedHandles oe serials).map DeviceHandle.serial ↔
      sr ∈ serials ∧ oe sr = none) := by
  have hfold := pushFile_fold oe serials
    { streamID := id, devicePath := p, lastChunkIndex := -1, deviceStreams := [] } []
    hnodup (by simp [PushStream.serials]) (by simp)
  have key : handlePushFile reg id p oe (Except.ok serials) "" =
      (Registry.insert reg id
        { streamID := id, devicePath := p, lastChunkIndex := -1,
          deviceStreams := openedHandles oe serials },
       Except.ok { streamID := id, deviceErrors := openErrors oe serials }) := by
    unfold handlePushFile newPushStream doWithDevice
    simp only [if_pos rfl]
    rw [hfold]
    simp only [if_true, List.nil_append, List.append_nil]
    rw [Registry.insert_insert]
  refine ⟨?_, ?_, ?_, ?_⟩
  · rw [key]
  · rw [key]
    simp [Registry.insert]
  · intro sr msg
    unfold openErrors
    simp only [List.mem_filterMap, Option.map_eq_some']
    constructor
    · rintro ⟨a, ha, er, hoe2, heq⟩
      rw [Prod.mk.injEq] at heq
      obtain ⟨rfl, rfl⟩ := heq
      exact ⟨ha, hoe2⟩
    · rintro ⟨ha, hoe2⟩
      exact ⟨sr, ha, msg, hoe2, rfl⟩
  · intro sr
    unfold openedHandles
    constructor
    · intro hmem
      simp only [List.map_map, List.mem_map, Function.comp] at hmem
      obtain ⟨a, ha, hser⟩ := hmem
      have ha2 := List.mem_filter.mp ha
      have : a = sr := hser
      rw [this] at ha2
      exact ⟨ha2.1, Option.isNone_iff_eq_none.mp (by simpa using ha2.2)⟩
    · rintro ⟨ha, hoe2⟩
      simp only [List.map_map, List.mem_map, Function.comp]
      exact ⟨sr, List.mem_filter.mpr ⟨ha, by simp [hoe2]⟩, rfl⟩

/-- The open oracle failing exactly device `"A"`. -/
def oeA : String → Option String := fun sr => if sr = "A" then some "err-a" else none

/-- Witness for C8: over devices `{A, B}` where A's open fails and B's
succeeds, the response reports only A and the registered stream holds
only B. -/
theorem C8_witness :
    (["A", "B"] : List String).Nodup ∧
    ("" : String) ∉ (["A", "B"] : List String) ∧
    oeA "B" = none ∧
    (oeA "A").isSome = true ∧
    (handlePushFile Registry.empty "s8" "/p" oeA (Except.ok ["A", "B"]) "").2 =
      Except.ok { streamID := "s8", deviceErrors := [("A", "err-a")] } ∧
    (handlePushFile Registry.empty "s8" "/p" oeA (Except.ok ["A", "B"]) "").1 "s8" =
      some { streamID := "s8", devicePath := "/p", lastChunkIndex := -1,
             deviceStreams := [{ serial := "B", written := [], closed := false }] } := by
  have h := C8_mixed_open_results_partition_devices Registry.empty "s8" "/p" oeA
    ["A", "B"] (by decide) (by decide)
    ⟨"B", by decide, by decide⟩ ⟨"A", by decide, by decide⟩
  refine ⟨by decide, by decide, by decide, by decide, ?_, ?_⟩
  · rw [h.1]
    exact congrArg Except.ok (congrArg _ (by decide))
  · rw [h.2.1]
    exact congrArg some (by rw [show openedHandles oeA ["A", "B"] =
      [{ serial := "B", written := [], closed := false }] from by decide])

/-! ## Round-trip of the chunk-payload base64 encoding -/

/-- Decoding inverts encoding on each alphabet character. -/
theorem sextetOf_alphaChar_fin : ∀ i : Fin 64, sextetOf (alphaChar i.val) = some i.val := by
  decide

/-- Decoding inverts encoding on each sextet value below 64. -/
theorem sextetOf_alphaChar (n : Nat) (h : n < 64) : sextetOf (alphaChar n) = some n :=
  sextetOf_alphaChar_fin ⟨n, h⟩

/-- No alphabet character is the padding character. -/
theorem alphaChar_ne_eq_fin : ∀ i : Fin 64, alphaChar i.val ≠ '=' := by decide

/-- No alphabet character is the padding character (value form). -/
theorem alphaChar_ne_eq (n : Nat) (h : n < 64) : alphaChar n ≠ '=' :=
  alphaChar_ne_eq_fin ⟨n, h⟩

/-- In-range alphabet characters are not newline characters. -/
theorem alphaChar_ne_newline_fin :
    ∀ i : Fin 64, alphaChar i.val ≠ '\r' ∧ alphaChar i.val ≠ '\n' := by decide

/-- The alphabet table has 64 entries. -/
theorem base64Alphabet_length : base64Alphabet.length = 64 := by decide

/-- The encoder's characters are never newline characters, for any sextet
argument (out-of-range arguments hit the table's default `'A'`). -/
theorem alphaChar_ne_newline (n : Nat) : alphaChar n ≠ '\r' ∧ alphaChar n ≠ '\n' := by
  by_cases h : n < 64
  · exact alphaChar_ne_newline_fin ⟨n, h⟩
  · unfold alphaChar
    rw [List.getD_eq_default]
    · exact ⟨by decide, by decide⟩
    · rw [base64Alphabet_length]; omega

/-- The newline filter of `base64Decode` is the identity on encoder
output. -/
theorem encode_filter_id (bytes : List Nat) :
    (base64EncodeList bytes).filter (fun c => !(c = '\r' || c = '\n')) =
      base64EncodeList bytes := by
  rw [List.filter_eq_self]
  intro c hc
  have hok : ∀ n, (!(alphaChar n = '\r' || alphaChar n = '\n')) = true := by
    intro n
    obtain ⟨h1, h2⟩ := alphaChar_ne_newline n
    simp [h1, h2]
  have heq : (!(('=' : Char) = '\r' || ('=' : Char) = '\n')) = true := by decide
  induction bytes using base64EncodeList.induct with
  | case1 => simp [base64EncodeList] at hc
  | case2 b0 =>
    simp only [base64EncodeList, List.mem_cons, List.not_mem_nil, or_false] at hc
    rcases hc with rfl | rfl | rfl | rfl
    · exact hok _
    · exact hok _
    · exact heq
    · exact heq
  | case3 b0 b1 =>
    simp only [base64EncodeList, List.mem_cons, List.not_mem_nil, or_false] at hc
    rcases hc with rfl | rfl | rfl | rfl
    · exact hok _
    · exact hok _
    · exact hok _
    · exact heq
  | case4 b0 b1 b2 rest ih =>
    simp only [base64EncodeList, List.mem_cons] at hc
    rcases hc with rfl | rfl | rfl | rfl | hmem
    · exact hok _
    · exact hok _
    · exact hok _
    · exact hok _
    · exact ih hmem

/-- Decoding a final quartet padded with `==` yields its single byte. -/
theorem decodeQuads_pad2 (a0 a1 : Char) (s0 s1 : Nat)
    (h0 : sextetOf a0 = some s0) (h1 : sextetOf a1 = some s1) :
    decodeQuads [a0, a1, '=', '='] = some [s0 * 4 + s1 / 16] := by
  simp [decodeQuads, h0, h1]

/-- Decoding a final quartet padded with one `=` yields its two bytes. -/
theorem decodeQuads_pad1 (a0 a1 a2 : Char) (s0 s1 s2 : Nat)
    (h0 : sextetOf a0 = some s0) (h1 : sextetOf a1 = some s1)
    (h2 : sextetOf a2 = some s2) (hne2 : a2 ≠ '=') :
    decodeQuads [a0, a1, a2, '='] =
      some [s0 * 4 + s1 / 16, s1 % 16 * 16 + s2 / 4] := by
  simp [decodeQuads, h0, h1, h2, hne2]

/-- Decoding an unpadded quartet yields three bytes and continues. -/
theorem decodeQuads_full (a0 a1 a2 a3 : Char) (s0 s1 s2 s3 : Nat) (rest : List Char)
    (h0 : sextetOf a0 = some s0) (h1 : sextetOf a1 = some s1)
    (h2 : sextetOf a2 = some s2) (h3 : sextetOf a3 = some s3) (hne3 : a3 ≠ '=') :
    decodeQuads (a0 :: a1 :: a2 :: a3 :: rest) =
      (decodeQuads rest).map
        (fun tail =>
          (s0 * 4 + s1 / 16) :: (s1 % 16 * 16 + s2 / 4) :: (s2 % 4 * 64 + s3) :: tail) := by
  simp [decodeQuads, h0, h1, h2, h3, hne3]

/-- Decoding the quartets produced by the encoder recovers the bytes. -/
theorem decodeQuads_encode : ∀ (bytes : List Nat), (∀ b ∈ bytes, b < 256) →
    decodeQuads (base64EncodeList bytes) = some bytes := by
  intro bytes
  induction bytes using base64EncodeList.induct with
  | case1 => intro _; rfl
  | case2 b0 =>
    intro h
    have h0 : b0 < 256 := h b0 (by simp)
    show decodeQuads [alphaChar (b0 / 4), alphaChar (b0 % 4 * 16), '=', '='] = some [b0]
    rw [decodeQuads_pad2 _ _ _ _ (sextetOf_alphaChar _ (by omega))
      (sextetOf_alphaChar _ (by omega))]
    simp only [Option.some.injEq, List.cons.injEq, and_true]
    omega
  | case3 b0 b1 =>
    intro h
    have h0 : b0 < 256 := h b0 (by simp)
    have h1 : b1 < 256 := h b1 (by simp)
    show decodeQuads [alphaChar (b0 / 4), alphaChar (b0 % 4 * 16 + b1 / 16),
      alphaChar (b1 % 16 * 4), '='] = some [b0, b1]
    rw [decodeQuads_pad1 _ _ _ _ _ _ (sextetOf_alphaChar _ (by omega))
      (sextetOf_alphaChar _ (by omega)) (sextetOf_alphaChar _ (by omega))
      (alphaChar_ne_eq _ (by omega))]
    simp only [Option.some.injEq, List.cons.injEq, and_true]
    exact ⟨by omega, by omega⟩
  | case4 b0 b1 b2 rest ih =>
    intro h
    have h0 : b0 < 256 := h b0 (by simp)
    have h1 : b1 < 256 := h b1 (by simp)
    have h2 : b2 < 256 := h b2 (by simp)
    have hr : ∀ b ∈ rest, b < 256 := fun b hb => h b (by simp [hb])
    show decodeQuads (alphaChar (b0 / 4) :: alphaChar (b0 % 4 * 16 + b1 / 16) ::
      alphaChar (b1 % 16 * 4 + b2 / 64) :: alphaChar (b2 % 64) ::
      base64EncodeList rest) = some (b0 :: b1 :: b2 :: rest)
    rw [decodeQuads_full _ _ _ _ _ _ _ _ _ (sextetOf_alphaChar _ (by omega))
      (sextetOf_alphaChar _ (by omega)) (sextetOf_alphaChar _ (by omega))
      (sextetOf_alphaChar _ (by omega)) (alphaChar_ne_eq _ (by omega))]
    rw [ih hr]
    simp only [Option.map_some', Option.some.injEq, List.cons.injEq]
    refine ⟨by omega, by omega, by omega, trivial⟩

/-- C9: base64-decoding the base64 encoding of a payload yields the
payload, for every byte sequence including the empty one — the round-trip
of the chunk-payload encoding consumed by `WriteChunk`. -/
theorem C9_base64_roundtrip (bytes : List Nat) (h : ∀ b ∈ bytes, b < 256) :
    base64Decode (base64Encode bytes) = some bytes := by
  unfold base64Decode base64Encode
  rw [show (String.mk (base64EncodeList bytes)).data = base64EncodeList bytes from rfl]
  rw [encode_filter_id]
  exact decodeQuads_encode bytes h

/-- Witness for C9: the round-trip at the empty payload and at
`[77, 97, 110, 0, 255]`. -/
theorem C9_witness :
    base64Decode (base64Encode []) = some [] ∧
    base64Decode (base64Encode [77, 97, 110, 0, 255]) = some [77, 97, 110, 0, 255] :=
  ⟨C9_base64_roundtrip [] (by decide),
    C9_base64_roundtrip [77, 97, 110, 0, 255] (by decide)⟩

end WebAdb
